import Mathlib

/-!
# Verification of the diff-view alignment and scroll-synchronization engine

This file gives a shallow embedding, in Lean, of the core logic of the
`pulsar-diff-view` package and proves properties of it:

* the view-zone (spacer) alignment pass (`DiffView._syncViewZoneHeights`,
  `DiffView._syncUnchangedRegion` in `lib/diff-display.js`, together with the
  height queries `getWrappedLineHeight` / `getBufferRangeHeight` of
  `EditorDiffExtender`),
* the scroll-synchronization handlers of `lib/sync-scroll.js` with their
  reentrancy guards and error fallbacks,
* chunk navigation (`nextDiff`) and diff loading (`displayDiff`),
* the copy operations (`copyToRight` / `copyToLeft`),
* the view-zone store of `EditorDiffExtender`
  (`setViewZoneHeight` / `removeViewZone`),
* the idempotent teardown `EditorDiffExtender.destroy`.

Pixel quantities in the alignment model are integers (screen-row counts times
an integral line height); pixel quantities in the scroll model are rationals
(the source divides viewport heights by two and works with fractional row
offsets).  JavaScript's mutable editor objects are rendered as explicit state
records, and calls into the host editor that only matter through the values
they return are abstracted as function-valued parameters.
-/

namespace DiffViewSpec

/-- Which of the two diffed editors a value belongs to.  `left` is
`editor1` / the "old" side, `right` is `editor2` / the "new" side. -/
inductive Side where
  | left
  | right
deriving DecidableEq, Repr

/-- The opposite side; embeds the `1 - changeScrollIndex` indexing of
`sync-scroll.js`. -/
def Side.other : Side → Side
  | Side.left => Side.right
  | Side.right => Side.left

theorem Side.other_ne (i : Side) : i.other ≠ i := by
  cases i <;> simp [Side.other]

/-- Position of a block decoration relative to its anchor line
(`blockPosition` in `EditorDiffExtender`). -/
inductive BlockPos where
  | before
  | after
deriving DecidableEq, Repr

/-- One contiguous change region of the diff, as produced by the external
diff computation and stored in `DiffView._chunks`.  Line ranges are half-open:
`[oldLineStart, oldLineEnd)` in editor 1 and `[newLineStart, newLineEnd)` in
editor 2.  `isSelected` is the per-chunk selection flag mutated by the
selection/copy controller. -/
structure Chunk where
  oldLineStart : Int
  oldLineEnd : Int
  newLineStart : Int
  newLineEnd : Int
  isSelected : Bool
deriving DecidableEq, Repr

/-! ## Rendered-height queries (`EditorDiffExtender`)

The editor geometry needed by the alignment pass: the wrap function
`screenRowForBufferRow`, the last buffer/screen rows, and the per-row pixel
height.  These are the host-editor accessors the height queries call. -/

structure HeightEditor where
  screenRowForBufferRow : Int → Int
  getLastBufferRow : Int
  getLastScreenRow : Int
  getLineHeightInPixels : Int

/-- `EditorDiffExtender.getWrappedLineHeight`: pixel height of a single
buffer line, accounting for soft wrap, with the special case for the last
buffer line. -/
def getWrappedLineHeight (e : HeightEditor) (bufferRow : Int) : Int :=
  let firstScreenRow := e.screenRowForBufferRow bufferRow
  let nextBufferRow := min (bufferRow + 1) e.getLastBufferRow
  let nextScreenRow := e.screenRowForBufferRow nextBufferRow
  let screenRowCount :=
    if bufferRow = e.getLastBufferRow then
      e.getLastScreenRow - firstScreenRow + 1
    else
      nextScreenRow - firstScreenRow
  screenRowCount * e.getLineHeightInPixels

/-- `EditorDiffExtender.getBufferRangeHeight`: total pixel height of the
half-open buffer-row range `[startRow, endRow)`. -/
def getBufferRangeHeight (e : HeightEditor) (startRow endRow : Int) : Int :=
  if startRow ≥ endRow then 0
  else
    (e.screenRowForBufferRow endRow - e.screenRowForBufferRow startRow) *
      e.getLineHeightInPixels

/-! ## The view-zone alignment pass (`DiffView._syncViewZoneHeights`)

The pass only interacts with the two `EditorDiffExtender`s through
`setViewZoneHeight` calls; we model it by the ordered list of those calls. -/

/-- One `setViewZoneHeight(line, height, position)` call emitted by the
alignment pass, tagged with the editor it targets. -/
structure SpacerCall where
  side : Side
  line : Int
  height : Int
  pos : BlockPos
deriving DecidableEq, Repr

/-- Body of one iteration of the `_syncUnchangedRegion` loop: compare the
wrapped heights of the paired lines `line1` / `line2` and emit a spacer on
the shorter side. -/
def unchangedPairCalls (e1 e2 : HeightEditor) (line1 line2 : Int) : List SpacerCall :=
  let height1 := getWrappedLineHeight e1 line1
  let height2 := getWrappedLineHeight e2 line2
  let diff := height1 - height2
  if diff > 0 then [⟨Side.right, line2, diff, BlockPos.after⟩]
  else if diff < 0 then [⟨Side.left, line1, -diff, BlockPos.after⟩]
  else []

/-- The `for (var i = 0; i < lineCount; i++)` loop of `_syncUnchangedRegion`,
unrolled on the remaining iteration count. -/
def syncUnchangedRegionAux (e1 e2 : HeightEditor) (line1 line2 : Int) :
    Nat → List SpacerCall
  | 0 => []
  | Nat.succ n =>
      unchangedPairCalls e1 e2 line1 line2 ++
        syncUnchangedRegionAux e1 e2 (line1 + 1) (line2 + 1) n

/-- `DiffView._syncUnchangedRegion(start1, end1, start2, end2)`:
`lineCount = min(end1 - start1, end2 - start2)` paired iterations
(`.toNat` renders the fact that the JS loop runs zero times for a
non-positive count). -/
def syncUnchangedRegion (e1 e2 : HeightEditor) (start1 end1 start2 end2 : Int) :
    List SpacerCall :=
  syncUnchangedRegionAux e1 e2 start1 start2
    (min (end1 - start1) (end2 - start2)).toNat

/-- The chunk phase of `_syncViewZoneHeights`: compare the total rendered
heights of the chunk's two ranges and emit at most one spacer on the shorter
side, anchored `after` `end - 1` for a non-empty range and `after`
`start - 1` for an empty one, skipped when that anchor is negative. -/
def syncChunkZone (e1 e2 : HeightEditor) (c : Chunk) : List SpacerCall :=
  let chunkHeight1 := getBufferRangeHeight e1 c.oldLineStart c.oldLineEnd
  let chunkHeight2 := getBufferRangeHeight e2 c.newLineStart c.newLineEnd
  let chunkDiff := chunkHeight1 - chunkHeight2
  if chunkDiff > 0 then
    let position :=
      if c.newLineEnd > c.newLineStart then c.newLineEnd - 1
      else c.newLineStart - 1
    if position ≥ 0 then [⟨Side.right, position, chunkDiff, BlockPos.after⟩]
    else []
  else if chunkDiff < 0 then
    let position :=
      if c.oldLineEnd > c.oldLineStart then c.oldLineEnd - 1
      else c.oldLineStart - 1
    if position ≥ 0 then [⟨Side.left, position, -chunkDiff, BlockPos.after⟩]
    else []
  else []

/-- The chunk loop of `_syncViewZoneHeights` with cursors `pos1`, `pos2`,
followed by the trailing unchanged region up to `lastLine1` / `lastLine2`
(each editor's `getLastBufferRow() + 1`). -/
def syncFrom (e1 e2 : HeightEditor) (lastLine1 lastLine2 : Int)
    (pos1 pos2 : Int) : List Chunk → List SpacerCall
  | [] => syncUnchangedRegion e1 e2 pos1 lastLine1 pos2 lastLine2
  | c :: rest =>
      syncUnchangedRegion e1 e2 pos1 c.oldLineStart pos2 c.newLineStart ++
        syncChunkZone e1 e2 c ++
        syncFrom e1 e2 lastLine1 lastLine2 c.oldLineEnd c.newLineEnd rest

/-- `DiffView._syncViewZoneHeights`: walk the chunk list from positions
`(0, 0)` and finish with the trailing unchanged region. -/
def syncViewZoneHeights (e1 e2 : HeightEditor) (chunks : List Chunk) :
    List SpacerCall :=
  syncFrom e1 e2 (e1.getLastBufferRow + 1) (e2.getLastBufferRow + 1) 0 0 chunks

/-! ## Spec-side descriptions of the alignment pass

The following definitions transcribe the specification's wording (not the
source) so the code-derived definitions above can be proved to coincide with
them. -/

/-- Spec wording for the chunk phase: if the two total heights differ, one
spacer of the positive difference on the shorter side, anchored `after` the
chunk's last line on that side when the chunk is non-empty there and at
`start - 1` when it is empty there, and no spacer at all when that anchor
line would be negative. -/
def chunkSpacerSpec (e1 e2 : HeightEditor) (c : Chunk) : List SpacerCall :=
  let heightA := getBufferRangeHeight e1 c.oldLineStart c.oldLineEnd
  let heightB := getBufferRangeHeight e2 c.newLineStart c.newLineEnd
  if heightA = heightB then []
  else if heightA > heightB then
    -- side B is shorter
    let anchor :=
      if c.newLineEnd > c.newLineStart then c.newLineEnd - 1
      else c.newLineStart - 1
    if anchor < 0 then []
    else [⟨Side.right, anchor, heightA - heightB, BlockPos.after⟩]
  else
    -- side A is shorter
    let anchor :=
      if c.oldLineEnd > c.oldLineStart then c.oldLineEnd - 1
      else c.oldLineStart - 1
    if anchor < 0 then []
    else [⟨Side.left, anchor, heightB - heightA, BlockPos.after⟩]

/-- Spec wording for one unchanged line pair: nothing when the two rendered
heights agree, otherwise one spacer of the positive difference on the shorter
side anchored `after` that line. -/
def pairSpacerSpec (e1 e2 : HeightEditor) (line1 line2 : Int) : List SpacerCall :=
  let heightA := getWrappedLineHeight e1 line1
  let heightB := getWrappedLineHeight e2 line2
  if heightA = heightB then []
  else if heightA > heightB then
    [⟨Side.right, line2, heightA - heightB, BlockPos.after⟩]
  else
    [⟨Side.left, line1, heightB - heightA, BlockPos.after⟩]

/-- Spec wording for an unchanged region: exactly
`min(lengthA, lengthB)` line pairs, processed in order. -/
def regionSpacerSpec (e1 e2 : HeightEditor) (start1 end1 start2 end2 : Int) :
    List SpacerCall :=
  ((List.range (min (end1 - start1) (end2 - start2)).toNat).map
    (fun i : Nat => pairSpacerSpec e1 e2 (start1 + (i : Int)) (start2 + (i : Int)))).flatten

theorem unchangedPairCalls_eq_spec (e1 e2 : HeightEditor) (line1 line2 : Int) :
    unchangedPairCalls e1 e2 line1 line2 = pairSpacerSpec e1 e2 line1 line2 := by
  unfold unchangedPairCalls pairSpacerSpec
  dsimp only
  split_ifs <;> first
    | rfl
    | (exfalso; omega)
    | (simp only [neg_sub])

theorem syncUnchangedRegionAux_eq_spec (e1 e2 : HeightEditor) :
    ∀ (n : Nat) (line1 line2 : Int),
      syncUnchangedRegionAux e1 e2 line1 line2 n =
        ((List.range n).map
          (fun i : Nat =>
            pairSpacerSpec e1 e2 (line1 + (i : Int)) (line2 + (i : Int)))).flatten := by
  intro n
  induction n with
  | zero => intro line1 line2; simp [syncUnchangedRegionAux]
  | succ n ih =>
      intro line1 line2
      have hfun : ((fun i : Nat =>
            pairSpacerSpec e1 e2 (line1 + (i : Int)) (line2 + (i : Int))) ∘ Nat.succ)
          = fun i : Nat =>
            pairSpacerSpec e1 e2 ((line1 + 1) + (i : Int)) ((line2 + 1) + (i : Int)) := by
        funext i
        simp only [Function.comp_apply, Nat.succ_eq_add_one]
        have h1 : line1 + ((i + 1 : Nat) : Int) = (line1 + 1) + (i : Int) := by
          push_cast; ring
        have h2 : line2 + ((i + 1 : Nat) : Int) = (line2 + 1) + (i : Int) := by
          push_cast; ring
        rw [h1, h2]
      have key : syncUnchangedRegionAux e1 e2 line1 line2 (n + 1) =
          unchangedPairCalls e1 e2 line1 line2 ++
            syncUnchangedRegionAux e1 e2 (line1 + 1) (line2 + 1) n := rfl
      rw [key, ih (line1 + 1) (line2 + 1), unchangedPairCalls_eq_spec,
        List.range_succ_eq_map, List.map_cons, List.map_map, List.flatten_cons, hfun]
      simp

/-- **C2.** For every unchanged region (including the trailing region, which
is processed even when the chunk list is empty), the engine iterates exactly
`min(lengthA, lengthB)` line pairs; each pair with differing rendered heights
yields one spacer of the positive difference on the shorter side anchored
`after` that line, and a pair of equal heights yields nothing.  The first
conjunct identifies the code's region pass with the spec-worded,
pair-by-pair description; the second shows the trailing pass runs on an
empty chunk list. -/
theorem syncUnchangedRegion_matches_spec :
    (∀ (e1 e2 : HeightEditor) (start1 end1 start2 end2 : Int),
      syncUnchangedRegion e1 e2 start1 end1 start2 end2 =
        regionSpacerSpec e1 e2 start1 end1 start2 end2) ∧
    (∀ (e1 e2 : HeightEditor),
      syncViewZoneHeights e1 e2 [] =
        syncUnchangedRegion e1 e2 0 (e1.getLastBufferRow + 1)
          0 (e2.getLastBufferRow + 1)) := by
  constructor
  · intro e1 e2 start1 end1 start2 end2
    unfold syncUnchangedRegion regionSpacerSpec
    exact syncUnchangedRegionAux_eq_spec e1 e2 _ start1 start2
  · intro e1 e2
    rfl

/-- **C1.** For every chunk processed by the view-zone height
synchronization: when the total rendered heights of the chunk's two line
ranges differ, exactly one spacer of the positive difference goes on the
shorter side, anchored `after` the chunk's last line there when the chunk is
non-empty on that side and at `start - 1` when it is empty there, and no
spacer is emitted when that anchor would be negative.  The first conjunct
identifies the code's chunk phase with the spec-worded description; the
second shows that the full pass processes every chunk through exactly that
phase (between the surrounding unchanged regions). -/
theorem syncChunkZone_matches_spec :
    (∀ (e1 e2 : HeightEditor) (c : Chunk),
      syncChunkZone e1 e2 c = chunkSpacerSpec e1 e2 c) ∧
    (∀ (e1 e2 : HeightEditor) (lastLine1 lastLine2 pos1 pos2 : Int)
        (c : Chunk) (rest : List Chunk),
      syncFrom e1 e2 lastLine1 lastLine2 pos1 pos2 (c :: rest) =
        syncUnchangedRegion e1 e2 pos1 c.oldLineStart pos2 c.newLineStart ++
          syncChunkZone e1 e2 c ++
          syncFrom e1 e2 lastLine1 lastLine2 c.oldLineEnd c.newLineEnd rest) := by
  constructor
  · intro e1 e2 c
    unfold syncChunkZone chunkSpacerSpec
    dsimp only
    split_ifs <;> first
      | rfl
      | (exfalso; omega)
      | (simp only [neg_sub])
  · intro e1 e2 lastLine1 lastLine2 pos1 pos2 c rest
    rfl

/-! ## Scroll synchronization (`lib/sync-scroll.js`)

`SyncScroll` holds one `scrolling` flag per side.  Vertical synchronization
(`_scrollPositionChanged`) maps the buffer line at the viewport's center to
the paired editor and writes its scroll top; horizontal synchronization
(`_horizontalScrollChanged`) copies the pixel offset directly.  Host-editor
lookups may throw (the buffer can be mid-destruction), which we render as
`Except Unit` results; a `Bool` per view says whether its scroll getters and
setters succeed.  A successful write to a view synchronously re-fires that
view's own change handler, which is the situation the `scrolling` guards
exist for. -/

structure ScrollEditorOps where
  getLineHeightInPixels : Except Unit Rat
  getLastBufferRow : Except Unit Int
  getLastScreenRow : Except Unit Int
  bufferRowForScreenRow : Int → Except Unit Int
  screenRowForBufferRow : Int → Except Unit Int

structure ScrollViewOps where
  getScrollTopOk : Bool
  setScrollTopOk : Bool
  getScrollLeftOk : Bool
  setScrollLeftOk : Bool
  getHeight : Except Unit Rat
  getScrollHeight : Except Unit Rat

/-- The two editors' lookup behaviour, per side. -/
structure SyncEnv where
  editorOps : Side → ScrollEditorOps
  viewOps : Side → ScrollViewOps

/-- The mutable state of the synchronized pair: the two `scrolling` guard
flags and the two scroll offsets, plus (for specification purposes) traces of
every `setScrollTop` / `setScrollLeft` call issued and of every run of the
direct-copy fallback statement. -/
structure SyncState where
  scrolling : Side → Bool
  scrollTop : Side → Rat
  scrollLeft : Side → Rat
  setTopCalls : List (Side × Rat)
  setLeftCalls : List (Side × Rat)
  fallbackRuns : List Side

def setScrollingFlag (s : SyncState) (j : Side) (b : Bool) : SyncState :=
  { s with scrolling := fun k => if k = j then b else s.scrolling k }

def writeScrollTop (s : SyncState) (j : Side) (v : Rat) : SyncState :=
  { s with scrollTop := fun k => if k = j then v else s.scrollTop k }

def writeScrollLeft (s : SyncState) (j : Side) (v : Rat) : SyncState :=
  { s with scrollLeft := fun k => if k = j then v else s.scrollLeft k }

def recordSetTop (s : SyncState) (j : Side) (v : Rat) : SyncState :=
  { s with setTopCalls := (j, v) :: s.setTopCalls }

def recordSetLeft (s : SyncState) (j : Side) (v : Rat) : SyncState :=
  { s with setLeftCalls := (j, v) :: s.setLeftCalls }

def recordFallback (s : SyncState) (j : Side) : SyncState :=
  { s with fallbackRuns := j :: s.fallbackRuns }

@[simp] theorem setScrollingFlag_scrollTop (s : SyncState) (j : Side) (b : Bool) :
    (setScrollingFlag s j b).scrollTop = s.scrollTop := rfl
@[simp] theorem setScrollingFlag_scrollLeft (s : SyncState) (j : Side) (b : Bool) :
    (setScrollingFlag s j b).scrollLeft = s.scrollLeft := rfl
@[simp] theorem setScrollingFlag_setTopCalls (s : SyncState) (j : Side) (b : Bool) :
    (setScrollingFlag s j b).setTopCalls = s.setTopCalls := rfl
@[simp] theorem setScrollingFlag_setLeftCalls (s : SyncState) (j : Side) (b : Bool) :
    (setScrollingFlag s j b).setLeftCalls = s.setLeftCalls := rfl
@[simp] theorem setScrollingFlag_fallbackRuns (s : SyncState) (j : Side) (b : Bool) :
    (setScrollingFlag s j b).fallbackRuns = s.fallbackRuns := rfl
@[simp] theorem setScrollingFlag_scrolling_self (s : SyncState) (j : Side) (b : Bool) :
    (setScrollingFlag s j b).scrolling j = b := by simp [setScrollingFlag]
@[simp] theorem setScrollingFlag_scrolling_ne (s : SyncState) (j k : Side) (b : Bool)
    (h : k ≠ j) : (setScrollingFlag s j b).scrolling k = s.scrolling k := by
  simp [setScrollingFlag, h]

@[simp] theorem writeScrollTop_scrolling (s : SyncState) (j : Side) (v : Rat) :
    (writeScrollTop s j v).scrolling = s.scrolling := rfl
@[simp] theorem writeScrollTop_setTopCalls (s : SyncState) (j : Side) (v : Rat) :
    (writeScrollTop s j v).setTopCalls = s.setTopCalls := rfl
@[simp] theorem writeScrollTop_setLeftCalls (s : SyncState) (j : Side) (v : Rat) :
    (writeScrollTop s j v).setLeftCalls = s.setLeftCalls := rfl
@[simp] theorem writeScrollTop_fallbackRuns (s : SyncState) (j : Side) (v : Rat) :
    (writeScrollTop s j v).fallbackRuns = s.fallbackRuns := rfl
@[simp] theorem writeScrollTop_scrollLeft (s : SyncState) (j : Side) (v : Rat) :
    (writeScrollTop s j v).scrollLeft = s.scrollLeft := rfl

@[simp] theorem writeScrollLeft_scrolling (s : SyncState) (j : Side) (v : Rat) :
    (writeScrollLeft s j v).scrolling = s.scrolling := rfl
@[simp] theorem writeScrollLeft_setTopCalls (s : SyncState) (j : Side) (v : Rat) :
    (writeScrollLeft s j v).setTopCalls = s.setTopCalls := rfl
@[simp] theorem writeScrollLeft_setLeftCalls (s : SyncState) (j : Side) (v : Rat) :
    (writeScrollLeft s j v).setLeftCalls = s.setLeftCalls := rfl
@[simp] theorem writeScrollLeft_fallbackRuns (s : SyncState) (j : Side) (v : Rat) :
    (writeScrollLeft s j v).fallbackRuns = s.fallbackRuns := rfl
@[simp] theorem writeScrollLeft_scrollTop (s : SyncState) (j : Side) (v : Rat) :
    (writeScrollLeft s j v).scrollTop = s.scrollTop := rfl

@[simp] theorem recordSetTop_scrolling (s : SyncState) (j : Side) (v : Rat) :
    (recordSetTop s j v).scrolling = s.scrolling := rfl
@[simp] theorem recordSetTop_scrollTop (s : SyncState) (j : Side) (v : Rat) :
    (recordSetTop s j v).scrollTop = s.scrollTop := rfl
@[simp] theorem recordSetTop_scrollLeft (s : SyncState) (j : Side) (v : Rat) :
    (recordSetTop s j v).scrollLeft = s.scrollLeft := rfl
@[simp] theorem recordSetTop_setTopCalls (s : SyncState) (j : Side) (v : Rat) :
    (recordSetTop s j v).setTopCalls = (j, v) :: s.setTopCalls := rfl
@[simp] theorem recordSetTop_setLeftCalls (s : SyncState) (j : Side) (v : Rat) :
    (recordSetTop s j v).setLeftCalls = s.setLeftCalls := rfl
@[simp] theorem recordSetTop_fallbackRuns (s : SyncState) (j : Side) (v : Rat) :
    (recordSetTop s j v).fallbackRuns = s.fallbackRuns := rfl

@[simp] theorem recordSetLeft_scrolling (s : SyncState) (j : Side) (v : Rat) :
    (recordSetLeft s j v).scrolling = s.scrolling := rfl
@[simp] theorem recordSetLeft_scrollLeft (s : SyncState) (j : Side) (v : Rat) :
    (recordSetLeft s j v).scrollLeft = s.scrollLeft := rfl
@[simp] theorem recordSetLeft_setLeftCalls (s : SyncState) (j : Side) (v : Rat) :
    (recordSetLeft s j v).setLeftCalls = (j, v) :: s.setLeftCalls := rfl
@[simp] theorem recordSetLeft_setTopCalls (s : SyncState) (j : Side) (v : Rat) :
    (recordSetLeft s j v).setTopCalls = s.setTopCalls := rfl

@[simp] theorem recordFallback_scrolling (s : SyncState) (j : Side) :
    (recordFallback s j).scrolling = s.scrolling := rfl
@[simp] theorem recordFallback_scrollTop (s : SyncState) (j : Side) :
    (recordFallback s j).scrollTop = s.scrollTop := rfl
@[simp] theorem recordFallback_setTopCalls (s : SyncState) (j : Side) :
    (recordFallback s j).setTopCalls = s.setTopCalls := rfl
@[simp] theorem recordFallback_fallbackRuns (s : SyncState) (j : Side) :
    (recordFallback s j).fallbackRuns = j :: s.fallbackRuns := rfl

/-- `thisView.getScrollTop()` for side `i`, reporting the stored offset `v`
or throwing. -/
def getScrollTopE (env : SyncEnv) (i : Side) (v : Rat) : Except Unit Rat :=
  if (env.viewOps i).getScrollTopOk then Except.ok v else Except.error ()

/-- `thisView.getScrollLeft()` for side `i`. -/
def getScrollLeftE (env : SyncEnv) (i : Side) (v : Rat) : Except Unit Rat :=
  if (env.viewOps i).getScrollLeftOk then Except.ok v else Except.error ()

/-- The lookup/arithmetic part of `SyncScroll._scrollPositionChanged` (the
body of its `try` block up to the final write): map the screen row at the
center of side `i`'s viewport to a buffer row, find the proportional
position within that wrapped line, and produce the clamped target scroll top
for the other side.  `topVal` is the current scroll top of side `i`.
(The source calls `otherEditor.getLastBufferRow()` twice with the same
result; we read it once.) -/
def computeTargetScrollTop (env : SyncEnv) (i : Side) (topVal : Rat) :
    Except Unit Rat := do
  let thisEditor := env.editorOps i
  let otherEditor := env.editorOps i.other
  let scrollTop ← getScrollTopE env i topVal
  let lineHeight ← thisEditor.getLineHeightInPixels
  let viewportHeight ← (env.viewOps i).getHeight
  let centerOffset := viewportHeight / 2
  let centerPixelPosition := scrollTop + centerOffset
  let centerScreenRow : Int := (centerPixelPosition / lineHeight).floor
  let fractionalOffset := centerPixelPosition - (centerScreenRow : Rat) * lineHeight
  let bufferRow ← thisEditor.bufferRowForScreenRow centerScreenRow
  let firstScreenRowOfBuffer ← thisEditor.screenRowForBufferRow bufferRow
  let screenRowOffsetWithinLine := centerScreenRow - firstScreenRowOfBuffer
  let otherFirstScreenRow ← otherEditor.screenRowForBufferRow bufferRow
  let otherLastBufferRow ← otherEditor.getLastBufferRow
  let otherNextBufferRow := min (bufferRow + 1) otherLastBufferRow
  let otherNextScreenRow ← otherEditor.screenRowForBufferRow otherNextBufferRow
  let otherScreenRowsForLine ←
    if bufferRow = otherLastBufferRow then do
      let lastScreen ← otherEditor.getLastScreenRow
      pure (lastScreen - otherFirstScreenRow + 1)
    else
      pure (otherNextScreenRow - otherFirstScreenRow)
  let thisLastBufferRow ← thisEditor.getLastBufferRow
  let thisNextBufferRow := min (bufferRow + 1) thisLastBufferRow
  let thisNextScreenRow ← thisEditor.screenRowForBufferRow thisNextBufferRow
  let thisScreenRowsForLine ←
    if bufferRow = thisLastBufferRow then do
      let lastScreen ← thisEditor.getLastScreenRow
      pure (lastScreen - firstScreenRowOfBuffer + 1)
    else
      pure (thisNextScreenRow - firstScreenRowOfBuffer)
  let proportionWithinLine :=
    if thisScreenRowsForLine > 1 then
      ((screenRowOffsetWithinLine : Rat) + fractionalOffset / lineHeight) /
        (thisScreenRowsForLine : Rat)
    else fractionalOffset / lineHeight
  let targetScreenRowOffset := proportionWithinLine * (otherScreenRowsForLine : Rat)
  let targetScreenRow := otherFirstScreenRow + targetScreenRowOffset.floor
  let targetFractionalOffset :=
    targetScreenRowOffset - (targetScreenRowOffset.floor : Rat)
  let otherLineHeight ← otherEditor.getLineHeightInPixels
  let otherViewportHeight ← (env.viewOps i.other).getHeight
  let otherCenterOffset := otherViewportHeight / 2
  let targetCenterPixel := (targetScreenRow : Rat) * otherLineHeight +
    targetFractionalOffset * otherLineHeight
  let targetScrollTop := targetCenterPixel - otherCenterOffset
  let scrollHeight ← (env.viewOps i.other).getScrollHeight
  let maxScrollTop := scrollHeight - otherViewportHeight
  pure (max 0 (min targetScrollTop maxScrollTop))

/-- `SyncScroll._scrollPositionChanged(changeScrollIndex = i)`.  The guard
returns early when side `i`'s own flag is set; otherwise the other side's
flag is set, the target offset is computed and written (a successful write
synchronously re-firing the other side's handler, rendered by the recursive
call on `fuel`), any failure of the computation or the write is caught by
running the direct pixel-copy fallback (whose own failure is swallowed), and
the flag is cleared.  `fuel` bounds the reentrance depth; the guard stops
the recursion after one level regardless. -/
def scrollPositionChanged (env : SyncEnv) : Nat → Side → SyncState → SyncState
  | 0, _, s => s
  | fuel + 1, i, s =>
    if s.scrolling i then s
    else
      let s1 := setScrollingFlag s i.other true
      let s2 :=
        match computeTargetScrollTop env i (s1.scrollTop i) with
        | Except.ok targetScrollTop =>
            let sA := recordSetTop s1 i.other targetScrollTop
            if (env.viewOps i.other).setScrollTopOk then
              scrollPositionChanged env fuel i.other
                (writeScrollTop sA i.other targetScrollTop)
            else
              -- the primary `otherView.setScrollTop` threw: outer catch,
              -- then the direct-copy fallback statement
              let sF := recordFallback sA i.other
              match getScrollTopE env i (sF.scrollTop i) with
              | Except.ok v =>
                  let sB := recordSetTop sF i.other v
                  if (env.viewOps i.other).setScrollTopOk then
                    scrollPositionChanged env fuel i.other
                      (writeScrollTop sB i.other v)
                  else sB
              | Except.error _ => sF
        | Except.error _ =>
            -- a lookup threw: outer catch, then the direct-copy fallback
            let sF := recordFallback s1 i.other
            match getScrollTopE env i (sF.scrollTop i) with
            | Except.ok v =>
                let sB := recordSetTop sF i.other v
                if (env.viewOps i.other).setScrollTopOk then
                  scrollPositionChanged env fuel i.other
                    (writeScrollTop sB i.other v)
                else sB
            | Except.error _ => sF
      setScrollingFlag s2 i.other false

/-- `SyncScroll._horizontalScrollChanged(changeScrollIndex = i)`: same guard
pattern with a direct pixel copy inside a try/catch that swallows errors. -/
def horizontalScrollChanged (env : SyncEnv) : Nat → Side → SyncState → SyncState
  | 0, _, s => s
  | fuel + 1, i, s =>
    if s.scrolling i then s
    else
      let s1 := setScrollingFlag s i.other true
      let s2 :=
        match getScrollLeftE env i (s1.scrollLeft i) with
        | Except.ok v =>
            let sA := recordSetLeft s1 i.other v
            if (env.viewOps i.other).setScrollLeftOk then
              horizontalScrollChanged env fuel i.other
                (writeScrollLeft sA i.other v)
            else sA
        | Except.error _ => s1
      setScrollingFlag s2 i.other false

theorem scrollPositionChanged_of_scrolling (env : SyncEnv) (fuel : Nat) (i : Side)
    (s : SyncState) (h : s.scrolling i = true) :
    scrollPositionChanged env fuel i s = s := by
  cases fuel with
  | zero => rfl
  | succ fuel => rw [scrollPositionChanged, if_pos (by simp [h])]

theorem horizontalScrollChanged_of_scrolling (env : SyncEnv) (fuel : Nat) (i : Side)
    (s : SyncState) (h : s.scrolling i = true) :
    horizontalScrollChanged env fuel i s = s := by
  cases fuel with
  | zero => rfl
  | succ fuel => rw [horizontalScrollChanged, if_pos (by simp [h])]

theorem mem_cons_target {l0 l : List (Side × Rat)} {j : Side}
    (hl : ∀ p ∈ l, p ∈ l0 ∨ p.1 = j) (v : Rat) :
    ∀ p ∈ (j, v) :: l, p ∈ l0 ∨ p.1 = j := by
  intro p hp
  rcases List.mem_cons.mp hp with hp | hp
  · exact Or.inr (by rw [hp])
  · exact hl p hp

theorem mem_self_target (l0 : List (Side × Rat)) (j : Side) :
    ∀ p ∈ l0, p ∈ l0 ∨ p.1 = j := fun _ hp => Or.inl hp

theorem scrollPositionChanged_guard_props (env : SyncEnv) (fuel : Nat)
    (i : Side) (s : SyncState) (h : s.scrolling i = false) :
    (∀ p ∈ (scrollPositionChanged env (fuel + 1) i s).setTopCalls,
        p ∈ s.setTopCalls ∨ p.1 = i.other) ∧
    (scrollPositionChanged env (fuel + 1) i s).scrolling i = false ∧
    (scrollPositionChanged env (fuel + 1) i s).scrolling i.other = false := by
  have hio : i ≠ i.other := fun hc => Side.other_ne i hc.symm
  simp only [scrollPositionChanged, h, Bool.false_eq_true, if_false,
    setScrollingFlag_scrollTop, recordSetTop_scrollTop, recordFallback_scrollTop]
  cases hct : computeTargetScrollTop env i (s.scrollTop i) with
  | ok v =>
      dsimp only
      cases hset : (env.viewOps i.other).setScrollTopOk with
      | true =>
          simp only [if_true]
          rw [scrollPositionChanged_of_scrolling env fuel i.other _ (by simp)]
          refine ⟨?_, by simp [hio, h], by simp⟩
          simp only [setScrollingFlag_setTopCalls, writeScrollTop_setTopCalls,
            recordSetTop_setTopCalls]
          exact mem_cons_target (mem_self_target _ _) _
      | false =>
          simp only [Bool.false_eq_true, if_false, setScrollingFlag_scrollTop,
            recordSetTop_scrollTop, recordFallback_scrollTop]
          cases hget : (env.viewOps i).getScrollTopOk with
          | true =>
              simp only [getScrollTopE, hget, if_true, Bool.false_eq_true, if_false]
              refine ⟨?_, by simp [hio, h], by simp⟩
              simp only [setScrollingFlag_setTopCalls, recordSetTop_setTopCalls,
                recordFallback_setTopCalls]
              exact mem_cons_target (mem_cons_target (mem_self_target _ _) _) _
          | false =>
              simp only [getScrollTopE, hget, Bool.false_eq_true, if_false]
              refine ⟨?_, by simp [hio, h], by simp⟩
              simp only [setScrollingFlag_setTopCalls, recordFallback_setTopCalls,
                recordSetTop_setTopCalls]
              exact mem_cons_target (mem_self_target _ _) _
  | error e =>
      dsimp only
      cases hget : (env.viewOps i).getScrollTopOk with
      | true =>
          simp only [getScrollTopE, hget, if_true]
          cases hset : (env.viewOps i.other).setScrollTopOk with
          | true =>
              simp only [if_true]
              rw [scrollPositionChanged_of_scrolling env fuel i.other _ (by simp)]
              refine ⟨?_, by simp [hio, h], by simp⟩
              simp only [setScrollingFlag_setTopCalls, writeScrollTop_setTopCalls,
                recordSetTop_setTopCalls, recordFallback_setTopCalls]
              exact mem_cons_target (mem_self_target _ _) _
          | false =>
              simp only [Bool.false_eq_true, if_false]
              refine ⟨?_, by simp [hio, h], by simp⟩
              simp only [setScrollingFlag_setTopCalls, recordSetTop_setTopCalls,
                recordFallback_setTopCalls]
              exact mem_cons_target (mem_self_target _ _) _
      | false =>
          simp only [getScrollTopE, hget, Bool.false_eq_true, if_false]
          refine ⟨?_, by simp [hio, h], by simp⟩
          simp only [setScrollingFlag_setTopCalls, recordFallback_setTopCalls]
          exact mem_self_target _ _

theorem horizontalScrollChanged_guard_props (env : SyncEnv) (fuel : Nat)
    (i : Side) (s : SyncState) (h : s.scrolling i = false) :
    (∀ p ∈ (horizontalScrollChanged env (fuel + 1) i s).setLeftCalls,
        p ∈ s.setLeftCalls ∨ p.1 = i.other) ∧
    (horizontalScrollChanged env (fuel + 1) i s).scrolling i = false ∧
    (horizontalScrollChanged env (fuel + 1) i s).scrolling i.other = false := by
  have hio : i ≠ i.other := fun hc => Side.other_ne i hc.symm
  simp only [horizontalScrollChanged, h, Bool.false_eq_true, if_false,
    setScrollingFlag_scrollLeft]
  cases hgl : getScrollLeftE env i (s.scrollLeft i) with
  | ok v =>
      dsimp only
      cases hset : (env.viewOps i.other).setScrollLeftOk with
      | true =>
          simp only [if_true]
          rw [horizontalScrollChanged_of_scrolling env fuel i.other _ (by simp)]
          refine ⟨?_, by simp [hio, h], by simp⟩
          simp only [setScrollingFlag_setLeftCalls, writeScrollLeft_setLeftCalls,
            recordSetLeft_setLeftCalls]
          exact mem_cons_target (mem_self_target _ _) _
      | false =>
          simp only [Bool.false_eq_true, if_false]
          refine ⟨?_, by simp [hio, h], by simp⟩
          simp only [setScrollingFlag_setLeftCalls, recordSetLeft_setLeftCalls]
          exact mem_cons_target (mem_self_target _ _) _
  | error e =>
      dsimp only
      refine ⟨?_, by simp [hio, h], by simp⟩
      simp only [setScrollingFlag_setLeftCalls]
      exact mem_self_target _ _

/-- **C3.** For every scroll event on one side `i` whose handler actually
propagates (its own `scrolling` flag is clear): the handler sets the other
side's flag before writing that side's offset and clears it synchronously
afterwards (both flags are back to `false` / unchanged when the handler
returns), every scroll-offset write it issues targets the other side only,
and an invocation that finds its own side's flag set returns the state
unchanged — so the write onto side `i.other` can never be echoed back onto
side `i` within the same event.  Covers both the vertical and the
horizontal handler. -/
theorem scrollSync_reentrancy_guard (env : SyncEnv) (fuel : Nat) (i : Side)
    (s : SyncState) (h : s.scrolling i = false) :
    (∀ p ∈ (scrollPositionChanged env (fuel + 1) i s).setTopCalls,
        p ∈ s.setTopCalls ∨ p.1 = i.other) ∧
    (scrollPositionChanged env (fuel + 1) i s).scrolling i = false ∧
    (scrollPositionChanged env (fuel + 1) i s).scrolling i.other = false ∧
    (∀ p ∈ (horizontalScrollChanged env (fuel + 1) i s).setLeftCalls,
        p ∈ s.setLeftCalls ∨ p.1 = i.other) ∧
    (horizontalScrollChanged env (fuel + 1) i s).scrolling i = false ∧
    (horizontalScrollChanged env (fuel + 1) i s).scrolling i.other = false ∧
    (∀ (fuel2 : Nat) (s2 : SyncState), s2.scrolling i.other = true →
        scrollPositionChanged env fuel2 i.other s2 = s2 ∧
        horizontalScrollChanged env fuel2 i.other s2 = s2) := by
  obtain ⟨hv1, hv2, hv3⟩ := scrollPositionChanged_guard_props env fuel i s h
  obtain ⟨hh1, hh2, hh3⟩ := horizontalScrollChanged_guard_props env fuel i s h
  exact ⟨hv1, hv2, hv3, hh1, hh2, hh3, fun fuel2 s2 h2 =>
    ⟨scrollPositionChanged_of_scrolling env fuel2 i.other s2 h2,
     horizontalScrollChanged_of_scrolling env fuel2 i.other s2 h2⟩⟩

/-- **C7.** For every vertical propagation in which a row/line/pixel lookup
throws (the target computation errors): the handler runs the direct-copy
fallback exactly once (recorded in `fallbackRuns`), the fallback issues a
`setScrollTop` on the destination carrying the source side's scroll-top
pixel offset whenever that offset is readable, a failure of the direct copy
itself is swallowed, and the handler always completes normally with both
guard flags cleared — the failure never escapes the handler. -/
theorem scrollSync_fallback (env : SyncEnv) (fuel : Nat) (i : Side) (s : SyncState)
    (h : s.scrolling i = false)
    (hfail : computeTargetScrollTop env i (s.scrollTop i) = Except.error ()) :
    (scrollPositionChanged env (fuel + 1) i s).fallbackRuns =
      i.other :: s.fallbackRuns ∧
    ((env.viewOps i).getScrollTopOk = true →
      (i.other, s.scrollTop i) ∈ (scrollPositionChanged env (fuel + 1) i s).setTopCalls) ∧
    (scrollPositionChanged env (fuel + 1) i s).scrolling i = false ∧
    (scrollPositionChanged env (fuel + 1) i s).scrolling i.other = false := by
  have hio : i ≠ i.other := fun hc => Side.other_ne i hc.symm
  simp only [scrollPositionChanged, h, Bool.false_eq_true, if_false,
    setScrollingFlag_scrollTop, recordSetTop_scrollTop, recordFallback_scrollTop,
    hfail]
  cases hget : (env.viewOps i).getScrollTopOk with
  | true =>
      simp only [getScrollTopE, hget, if_true]
      cases hset : (env.viewOps i.other).setScrollTopOk with
      | true =>
          simp only [if_true]
          rw [scrollPositionChanged_of_scrolling env fuel i.other _ (by simp)]
          refine ⟨by simp, fun _ => ?_, by simp [hio, h], by simp⟩
          simp only [setScrollingFlag_setTopCalls, writeScrollTop_setTopCalls,
            recordSetTop_setTopCalls]
          exact List.mem_cons_self _ _
      | false =>
          simp only [Bool.false_eq_true, if_false]
          refine ⟨by simp, fun _ => ?_, by simp [hio, h], by simp⟩
          simp only [setScrollingFlag_setTopCalls, recordSetTop_setTopCalls,
            recordFallback_setTopCalls]
          exact List.mem_cons_self _ _
  | false =>
      simp only [getScrollTopE, hget, Bool.false_eq_true, if_false]
      refine ⟨by simp, fun hcon => ?_, by simp [hio, h], by simp⟩
      exact absurd hcon (by simp [hget])

/-- A pair of healthy editors: every lookup succeeds, the wrap function is
the identity, line height 10px, viewport 300px. -/
def sampleEditorOps : ScrollEditorOps where
  getLineHeightInPixels := Except.ok 10
  getLastBufferRow := Except.ok 100
  getLastScreenRow := Except.ok 100
  bufferRowForScreenRow := fun r => Except.ok r
  screenRowForBufferRow := fun r => Except.ok r

def sampleViewOps : ScrollViewOps where
  getScrollTopOk := true
  setScrollTopOk := true
  getScrollLeftOk := true
  setScrollLeftOk := true
  getHeight := Except.ok 300
  getScrollHeight := Except.ok 1010

def sampleEnv : SyncEnv where
  editorOps := fun _ => sampleEditorOps
  viewOps := fun _ => sampleViewOps

/-- Idle state: no guard set, both offsets at zero, empty traces. -/
def sampleSyncState : SyncState where
  scrolling := fun _ => false
  scrollTop := fun _ => 0
  scrollLeft := fun _ => 0
  setTopCalls := []
  setLeftCalls := []
  fallbackRuns := []

theorem scrollSync_reentrancy_guard_witness :
    sampleSyncState.scrolling Side.left = false ∧
    ((scrollPositionChanged sampleEnv 3 Side.left sampleSyncState).scrolling
        Side.left = false ∧
      (scrollPositionChanged sampleEnv 3 Side.left sampleSyncState).scrolling
        (Side.other Side.left) = false) :=
  ⟨rfl,
    (scrollSync_reentrancy_guard sampleEnv 2 Side.left sampleSyncState rfl).2.1,
    (scrollSync_reentrancy_guard sampleEnv 2 Side.left sampleSyncState rfl).2.2.1⟩

/-- Like `sampleEnv`, but the left editor's line-height lookup throws, as
when its buffer is being destroyed mid-computation. -/
def sampleEnvFailing : SyncEnv where
  editorOps := fun i =>
    match i with
    | Side.left => { sampleEditorOps with getLineHeightInPixels := Except.error () }
    | Side.right => sampleEditorOps
  viewOps := fun _ => sampleViewOps

theorem scrollSync_fallback_witness :
    sampleSyncState.scrolling Side.left = false ∧
    computeTargetScrollTop sampleEnvFailing Side.left
      (sampleSyncState.scrollTop Side.left) = Except.error () ∧
    (scrollPositionChanged sampleEnvFailing 3 Side.left sampleSyncState).fallbackRuns =
      (Side.left).other :: sampleSyncState.fallbackRuns :=
  ⟨rfl, rfl,
    (scrollSync_fallback sampleEnvFailing 2 Side.left sampleSyncState rfl rfl).1⟩

/-! ## Chunk navigation and diff loading (`DiffView`)

The selection-relevant slice of the `DiffView` object: the chunk list, the
`_isSelectionActive` flag and `_selectedChunkIndex` cursor, plus the stored
legacy offset maps.  The purely visual work of `_selectChunk` (marker
highlighting, autoscroll) has no effect on these fields and is not
represented; its effect on the chunk list is the `isSelected` mark. -/

structure NavState where
  chunks : List Chunk
  isSelectionActive : Bool
  selectedChunkIndex : Int
  oldLineOffsets : List (Int × Int)
  newLineOffsets : List (Int × Int)
deriving DecidableEq, Repr

/-- The selection state a fresh `DiffView` starts in
(`constructor`: `_chunks = []`, `_isSelectionActive = false`,
`_selectedChunkIndex = 0`). -/
def initialNavState : NavState :=
  { chunks := []
    isSelectionActive := false
    selectedChunkIndex := 0
    oldLineOffsets := []
    newLineOffsets := [] }

/-- Mark the chunk at list position `n` as selected
(`diffChunk.isSelected = true` in `_selectChunk`). -/
def markSelectedAt : List Chunk → Nat → List Chunk
  | [], _ => []
  | c :: rest, 0 => { c with isSelected := true } :: rest
  | c :: rest, n + 1 => c :: markSelectedAt rest n

/-- `DiffView._selectChunk(index)` restricted to the modelled fields:
`this._chunks[index]` is non-null exactly when `0 ≤ index < length`; in that
case the chunk is marked selected and the call reports success. -/
def selectChunkAt (s : NavState) (index : Int) : NavState × Bool :=
  if 0 ≤ index ∧ index < (s.chunks.length : Int) then
    ({ s with chunks := markSelectedAt s.chunks index.toNat }, true)
  else (s, false)

/-- `DiffView.nextDiff`: an active selection advances the cursor with
wraparound against `getNumDifferences()`; an inactive one is activated at
the current cursor without advancing.  Then `_selectChunk` runs; on failure
the returned index is `-1` (the state mutations persist). -/
def nextDiff (s : NavState) : NavState × Int :=
  let s1 :=
    if s.isSelectionActive then
      let idx := s.selectedChunkIndex + 1
      let idx := if idx ≥ (s.chunks.length : Int) then 0 else idx
      { s with selectedChunkIndex := idx }
    else
      { s with isSelectionActive := true }
  let r := selectChunkAt s1 s1.selectedChunkIndex
  if r.2 then (r.1, r.1.selectedChunkIndex) else (r.1, -1)

/-- The state transformation of one `nextDiff` call. -/
def nextDiffState (s : NavState) : NavState := (nextDiff s).1

/-- `DiffView.displayDiff` restricted to the modelled fields: it assigns
`this._chunks = diff.chunks` and stores the two legacy offset maps; it never
assigns `_isSelectionActive` or `_selectedChunkIndex` (the remainder of the
method does marker/highlight work only). -/
def displayDiffNav (s : NavState) (diffChunks : List Chunk)
    (oldOffs newOffs : List (Int × Int)) : NavState :=
  { s with
    chunks := diffChunks
    oldLineOffsets := oldOffs
    newLineOffsets := newOffs }

theorem markSelectedAt_length (l : List Chunk) (n : Nat) :
    (markSelectedAt l n).length = l.length := by
  induction l generalizing n with
  | nil => rfl
  | cons c rest ih =>
      cases n with
      | zero => rfl
      | succ n => simp [markSelectedAt, ih]

/-- One `nextDiff` call from an active in-range selection: stays active,
preserves the chunk count, and advances the cursor to `(index + 1) mod n`. -/
theorem nextDiffState_active (s : NavState) (ha : s.isSelectionActive = true)
    (h0 : 0 ≤ s.selectedChunkIndex)
    (h1 : s.selectedChunkIndex < (s.chunks.length : Int)) :
    (nextDiffState s).isSelectionActive = true ∧
    (nextDiffState s).chunks.length = s.chunks.length ∧
    (nextDiffState s).selectedChunkIndex =
      (s.selectedChunkIndex + 1) % (s.chunks.length : Int) := by
  have hn : 0 < (s.chunks.length : Int) := lt_of_le_of_lt h0 h1
  unfold nextDiffState nextDiff selectChunkAt
  simp only [ha, if_true]
  by_cases hwrap : s.selectedChunkIndex + 1 ≥ (s.chunks.length : Int)
  · have heq : s.selectedChunkIndex + 1 = (s.chunks.length : Int) := by omega
    have hmod : (s.selectedChunkIndex + 1) % (s.chunks.length : Int) = 0 := by
      rw [heq, Int.emod_self]
    simp [hwrap, hn, markSelectedAt_length, hmod]
  · have h01 : (0 : Int) ≤ s.selectedChunkIndex + 1 := by omega
    have hlt : s.selectedChunkIndex + 1 < (s.chunks.length : Int) := by omega
    have hmod : (s.selectedChunkIndex + 1) % (s.chunks.length : Int) =
        s.selectedChunkIndex + 1 := Int.emod_eq_of_lt h01 hlt
    simp [hwrap, h01, hlt, markSelectedAt_length, hmod]

theorem nextDiffState_iterate (s : NavState) (ha : s.isSelectionActive = true)
    (h0 : 0 ≤ s.selectedChunkIndex)
    (h1 : s.selectedChunkIndex < (s.chunks.length : Int)) :
    ∀ k : Nat, (nextDiffState^[k] s).isSelectionActive = true ∧
      (nextDiffState^[k] s).chunks.length = s.chunks.length ∧
      (nextDiffState^[k] s).selectedChunkIndex =
        (s.selectedChunkIndex + (k : Int)) % (s.chunks.length : Int) := by
  have hn : 0 < (s.chunks.length : Int) := lt_of_le_of_lt h0 h1
  intro k
  induction k with
  | zero =>
      refine ⟨ha, rfl, ?_⟩
      simpa using (Int.emod_eq_of_lt h0 h1).symm
  | succ k ih =>
      obtain ⟨iha, ihlen, ihidx⟩ := ih
      have hb0 : 0 ≤ (nextDiffState^[k] s).selectedChunkIndex := by
        rw [ihidx]; exact Int.emod_nonneg _ (by omega)
      have hb1 : (nextDiffState^[k] s).selectedChunkIndex <
          ((nextDiffState^[k] s).chunks.length : Int) := by
        rw [ihidx, ihlen]; exact Int.emod_lt_of_pos _ hn
      obtain ⟨ha2, hlen2, hidx2⟩ :=
        nextDiffState_active (nextDiffState^[k] s) iha hb0 hb1
      rw [Function.iterate_succ_apply']
      refine ⟨ha2, by rw [hlen2, ihlen], ?_⟩
      rw [hidx2, ihlen, ihidx]
      conv_lhs => rw [Int.add_emod]
      rw [Int.emod_emod_of_dvd _ dvd_rfl, ← Int.add_emod]
      congr 1
      push_cast
      ring

/-- **C4 counterexample.** The round-trip law fails from the freshly-loaded
(inactive) selection state: with two chunks loaded, calling `next()` twice
(`count()` times) ends at index 1, not at the starting index 0, because the
first call merely activates the selection at the current index without
advancing it. -/
theorem nextDiff_roundTrip_counterexample :
    ((nextDiffState^[2])
        (displayDiffNav initialNavState
          [⟨0, 1, 0, 1, false⟩, ⟨2, 3, 2, 4, false⟩] [] [])).selectedChunkIndex ≠
      (displayDiffNav initialNavState
        [⟨0, 1, 0, 1, false⟩, ⟨2, 3, 2, 4, false⟩] [] []).selectedChunkIndex := by
  decide

/-- **C4 (amended).** The wraparound round-trip law holds once the selection
is active: for every state with an active selection and an in-range cursor
over `n = count()` chunks, `n` successive `nextDiff` calls return the cursor
to its starting value, each call advancing by one modulo `n`.  (From the
freshly-loaded inactive state the law fails — see the counterexample —
since the first call activates at the current index without advancing.) -/
theorem nextDiff_roundTrip_of_active (s : NavState) (ha : s.isSelectionActive = true)
    (h0 : 0 ≤ s.selectedChunkIndex)
    (h1 : s.selectedChunkIndex < (s.chunks.length : Int)) :
    (nextDiffState^[s.chunks.length] s).selectedChunkIndex = s.selectedChunkIndex := by
  obtain ⟨-, -, hidx⟩ := nextDiffState_iterate s ha h0 h1 s.chunks.length
  rw [hidx]
  have hself : (s.selectedChunkIndex + (s.chunks.length : Int)) %
      (s.chunks.length : Int) = s.selectedChunkIndex % (s.chunks.length : Int) := by
    have hx := Int.add_mul_emod_self_left (a := s.selectedChunkIndex)
      (b := (s.chunks.length : Int)) (c := 1)
    rw [mul_one] at hx
    exact hx
  rw [hself, Int.emod_eq_of_lt h0 h1]

/-- A state whose selection is already active at index 0 over two chunks. -/
def activeNavState : NavState :=
  { chunks := [⟨0, 1, 0, 1, false⟩, ⟨2, 3, 2, 4, false⟩]
    isSelectionActive := true
    selectedChunkIndex := 0
    oldLineOffsets := []
    newLineOffsets := [] }

theorem nextDiff_roundTrip_of_active_witness :
    (activeNavState.isSelectionActive = true ∧
      0 ≤ activeNavState.selectedChunkIndex ∧
      activeNavState.selectedChunkIndex < (activeNavState.chunks.length : Int)) ∧
    (nextDiffState^[activeNavState.chunks.length] activeNavState).selectedChunkIndex =
      activeNavState.selectedChunkIndex :=
  ⟨⟨rfl, by decide, by decide⟩,
    nextDiff_roundTrip_of_active activeNavState rfl (by decide) (by decide)⟩

/-- **C9 counterexample.** Loading a new diff does not reset the selection
state: after loading three chunks and calling `next()` twice (selection
active at index 1), loading a fresh one-chunk diff leaves the selection
active at index 1 instead of inactive at index 0. -/
theorem displayDiff_selection_counterexample :
    ¬((displayDiffNav
          (nextDiffState (nextDiffState
            (displayDiffNav initialNavState
              [⟨0, 1, 0, 1, false⟩, ⟨2, 3, 2, 4, false⟩, ⟨5, 6, 6, 7, false⟩] [] [])))
          [⟨0, 1, 0, 1, false⟩] [] []).isSelectionActive = false ∧
      (displayDiffNav
          (nextDiffState (nextDiffState
            (displayDiffNav initialNavState
              [⟨0, 1, 0, 1, false⟩, ⟨2, 3, 2, 4, false⟩, ⟨5, 6, 6, 7, false⟩] [] [])))
          [⟨0, 1, 0, 1, false⟩] [] []).selectedChunkIndex = 0) := by
  decide

/-- **C9 (amended).** `displayDiff` replaces the chunk list wholesale (and
stores the new offset maps) but does not reset the selection cursor:
`_isSelectionActive` and `_selectedChunkIndex` keep their pre-load values;
they are `false` / `0` only in the state a freshly constructed `DiffView`
starts from. -/
theorem displayDiff_replaces_chunks_keeps_selection (s : NavState)
    (diffChunks : List Chunk) (oldOffs newOffs : List (Int × Int)) :
    (displayDiffNav s diffChunks oldOffs newOffs).chunks = diffChunks ∧
    (displayDiffNav s diffChunks oldOffs newOffs).isSelectionActive =
      s.isSelectionActive ∧
    (displayDiffNav s diffChunks oldOffs newOffs).selectedChunkIndex =
      s.selectedChunkIndex ∧
    initialNavState.isSelectionActive = false ∧
    initialNavState.selectedChunkIndex = 0 :=
  ⟨rfl, rfl, rfl, rfl, rfl⟩

/-! ## Copy operations (`DiffView.copyToRight` / `copyToLeft`)

Buffers are modelled at line granularity (a `List String` of logical
lines).  `getTextInBufferRange([[a,0],[b,0]])` reads lines `[a, b)`;
`setTextInBufferRange([[a,0],[b,0]], text)` replaces lines `[a, b)`;
`insertNewline()` with the cursor at `[row, 0]` splits at that position,
adding one empty line before `row`.  The `hasSelection()` probes of the two
extenders' selection marker layers are constant during a copy (nothing
mutates those layers inside the loop) and enter as two booleans. -/

/-- Lines `[a, b)` of a buffer, clipped to the buffer. -/
def getLinesInRange (buf : List String) (a b : Int) : List String :=
  (buf.take b.toNat).drop a.toNat

/-- Replace lines `[a, b)` of `buf` with `newLines`, clipped to the buffer. -/
def setLinesInRange (buf : List String) (a b : Int) (newLines : List String) :
    List String :=
  buf.take a.toNat ++ newLines ++ buf.drop b.toNat

/-- `insertNewline()` with the cursor at `[row, 0]`. -/
def insertNewlineAtRowStart (buf : List String) (row : Int) : List String :=
  buf.take row.toNat ++ [""] ++ buf.drop row.toNat

/-- One source-range/destination-range pair passed to
`getTextInBufferRange` / `setTextInBufferRange` by a copy operation. -/
structure CopyOp where
  srcStart : Int
  srcEnd : Int
  dstStart : Int
  dstEnd : Int
deriving DecidableEq, Repr

/-- The loop state of a copy operation: the running `offset`, the
destination buffer being mutated, the selection cursor (decremented per
copied chunk when a selection highlight exists), the `foundSelection` flag,
and the trace of issued range pairs. -/
structure CopyAcc where
  offset : Int
  destBuffer : List String
  selectedChunkIndex : Int
  foundSelection : Bool
  copyOps : List CopyOp
deriving DecidableEq, Repr

/-- The selection/copy-relevant slice of a `DiffView` with its two editors'
buffers. -/
structure CopyState where
  chunks : List Chunk
  selectedChunkIndex : Int
  buffer1 : List String
  buffer2 : List String
  warnings : List String
  hasSelection1 : Bool
  hasSelection2 : Bool
deriving DecidableEq, Repr

/-- `DiffView._COPY_HELP_MESSAGE`. -/
def copyHelpMessage : String := "No differences selected."

/-- One iteration of the `copyToRight` loop body for chunk `c`. -/
def copyToRightStep (buffer1 : List String) (hasSel : Bool)
    (acc : CopyAcc) (c : Chunk) : CopyAcc :=
  if c.isSelected then
    let textToCopy := getLinesInRange buffer1 c.oldLineStart c.oldLineEnd
    let lastBufferRow := (acc.destBuffer.length : Int) - 1
    let buf :=
      if c.newLineStart + acc.offset > lastBufferRow then
        insertNewlineAtRowStart acc.destBuffer lastBufferRow
      else acc.destBuffer
    let buf := setLinesInRange buf (c.newLineStart + acc.offset)
      (c.newLineEnd + acc.offset) textToCopy
    { offset := acc.offset +
        ((c.oldLineEnd - c.oldLineStart) - (c.newLineEnd - c.newLineStart))
      destBuffer := buf
      selectedChunkIndex :=
        if hasSel then acc.selectedChunkIndex - 1 else acc.selectedChunkIndex
      foundSelection := true
      copyOps := acc.copyOps ++
        [⟨c.oldLineStart, c.oldLineEnd,
          c.newLineStart + acc.offset, c.newLineEnd + acc.offset⟩] }
  else acc

/-- `DiffView.copyToRight`: fold the loop body over the chunk list; if no
chunk was selected, add the non-fatal "no selection" warning.  Returns the
new state together with the trace of issued range pairs. -/
def copyToRight (s : CopyState) : CopyState × List CopyOp :=
  let hasSel := s.hasSelection1 || s.hasSelection2
  let acc0 : CopyAcc :=
    { offset := 0, destBuffer := s.buffer2,
      selectedChunkIndex := s.selectedChunkIndex,
      foundSelection := false, copyOps := [] }
  let acc := s.chunks.foldl (copyToRightStep s.buffer1 hasSel) acc0
  let s1 := { s with
    buffer2 := acc.destBuffer
    selectedChunkIndex := acc.selectedChunkIndex }
  if acc.foundSelection then (s1, acc.copyOps)
  else ({ s1 with warnings := s.warnings ++ [copyHelpMessage] }, acc.copyOps)

/-- One iteration of the `copyToLeft` loop body for chunk `c` (mirror image:
source is editor 2's buffer, destination editor 1's). -/
def copyToLeftStep (buffer2 : List String) (hasSel : Bool)
    (acc : CopyAcc) (c : Chunk) : CopyAcc :=
  if c.isSelected then
    let textToCopy := getLinesInRange buffer2 c.newLineStart c.newLineEnd
    let lastBufferRow := (acc.destBuffer.length : Int) - 1
    let buf :=
      if c.oldLineStart + acc.offset > lastBufferRow then
        insertNewlineAtRowStart acc.destBuffer lastBufferRow
      else acc.destBuffer
    let buf := setLinesInRange buf (c.oldLineStart + acc.offset)
      (c.oldLineEnd + acc.offset) textToCopy
    { offset := acc.offset +
        ((c.newLineEnd - c.newLineStart) - (c.oldLineEnd - c.oldLineStart))
      destBuffer := buf
      selectedChunkIndex :=
        if hasSel then acc.selectedChunkIndex - 1 else acc.selectedChunkIndex
      foundSelection := true
      copyOps := acc.copyOps ++
        [⟨c.newLineStart, c.newLineEnd,
          c.oldLineStart + acc.offset, c.oldLineEnd + acc.offset⟩] }
  else acc

/-- `DiffView.copyToLeft`. -/
def copyToLeft (s : CopyState) : CopyState × List CopyOp :=
  let hasSel := s.hasSelection1 || s.hasSelection2
  let acc0 : CopyAcc :=
    { offset := 0, destBuffer := s.buffer1,
      selectedChunkIndex := s.selectedChunkIndex,
      foundSelection := false, copyOps := [] }
  let acc := s.chunks.foldl (copyToLeftStep s.buffer2 hasSel) acc0
  let s1 := { s with
    buffer1 := acc.destBuffer
    selectedChunkIndex := acc.selectedChunkIndex }
  if acc.foundSelection then (s1, acc.copyOps)
  else ({ s1 with warnings := s.warnings ++ [copyHelpMessage] }, acc.copyOps)

/-! Spec-side description of the copy bookkeeping (transcribed from the
specification's words, to be compared with the code-derived trace). -/

/-- Lines copied in minus lines overwritten, for a left-to-right copy. -/
def copyGrowthRight (c : Chunk) : Int :=
  (c.oldLineEnd - c.oldLineStart) - (c.newLineEnd - c.newLineStart)

/-- Lines copied in minus lines overwritten, for a right-to-left copy. -/
def copyGrowthLeft (c : Chunk) : Int :=
  (c.newLineEnd - c.newLineStart) - (c.oldLineEnd - c.oldLineStart)

/-- Spec wording (rightward): each chunk is copied with its source range
unshifted and the running offset added to both destination bounds; after a
copy the offset grows by `sourceLineCount - destinationLineCount`. -/
def copyOpsSpecFromRight (off : Int) : List Chunk → List CopyOp
  | [] => []
  | c :: rest =>
      ⟨c.oldLineStart, c.oldLineEnd,
        c.newLineStart + off, c.newLineEnd + off⟩ ::
        copyOpsSpecFromRight (off + copyGrowthRight c) rest

/-- Spec wording (rightward): the selected chunks in original list order,
with the running offset starting at 0. -/
def copyOpsSpecRight (chunks : List Chunk) : List CopyOp :=
  copyOpsSpecFromRight 0 (chunks.filter (fun c => c.isSelected))

def copyOpsSpecFromLeft (off : Int) : List Chunk → List CopyOp
  | [] => []
  | c :: rest =>
      ⟨c.newLineStart, c.newLineEnd,
        c.oldLineStart + off, c.oldLineEnd + off⟩ ::
        copyOpsSpecFromLeft (off + copyGrowthLeft c) rest

def copyOpsSpecLeft (chunks : List Chunk) : List CopyOp :=
  copyOpsSpecFromLeft 0 (chunks.filter (fun c => c.isSelected))

theorem copyToRight_fold_ops (buffer1 : List String) (hasSel : Bool) :
    ∀ (chunks : List Chunk) (acc : CopyAcc),
      (chunks.foldl (copyToRightStep buffer1 hasSel) acc).copyOps =
        acc.copyOps ++ copyOpsSpecFromRight acc.offset
          (chunks.filter (fun c => c.isSelected)) := by
  intro chunks
  induction chunks with
  | nil => intro acc; simp [copyOpsSpecFromRight]
  | cons c rest ih =>
      intro acc
      rw [List.foldl_cons]
      cases hc : c.isSelected with
      | true =>
          rw [List.filter_cons_of_pos (by simp [hc])]
          rw [ih]
          simp [copyToRightStep, hc, copyOpsSpecFromRight, copyGrowthRight]
      | false =>
          rw [List.filter_cons_of_neg (by simp [hc])]
          rw [ih]
          simp [copyToRightStep, hc]

theorem copyToLeft_fold_ops (buffer2 : List String) (hasSel : Bool) :
    ∀ (chunks : List Chunk) (acc : CopyAcc),
      (chunks.foldl (copyToLeftStep buffer2 hasSel) acc).copyOps =
        acc.copyOps ++ copyOpsSpecFromLeft acc.offset
          (chunks.filter (fun c => c.isSelected)) := by
  intro chunks
  induction chunks with
  | nil => intro acc; simp [copyOpsSpecFromLeft]
  | cons c rest ih =>
      intro acc
      rw [List.foldl_cons]
      cases hc : c.isSelected with
      | true =>
          rw [List.filter_cons_of_pos (by simp [hc])]
          rw [ih]
          simp [copyToLeftStep, hc, copyOpsSpecFromLeft, copyGrowthLeft]
      | false =>
          rw [List.filter_cons_of_neg (by simp [hc])]
          rw [ih]
          simp [copyToLeftStep, hc]

/-- **C5.** Both copy directions process the selected chunks in original
list order with a running offset starting at 0: each copied chunk's source
range is read unshifted, its destination range bounds are both shifted by
the current offset, and the offset then grows by
`sourceLineCount - destinationLineCount` — so a copy that grows the
destination by `k` lines shifts every later selected chunk's destination
range by exactly `k` more (third conjunct: the offset threaded to the rest
is exactly `off + growth`). -/
theorem copyOps_offset_bookkeeping :
    (∀ s : CopyState, (copyToRight s).2 = copyOpsSpecRight s.chunks) ∧
    (∀ s : CopyState, (copyToLeft s).2 = copyOpsSpecLeft s.chunks) ∧
    (∀ (off : Int) (c : Chunk) (rest : List Chunk),
      copyOpsSpecFromRight off (c :: rest) =
        ⟨c.oldLineStart, c.oldLineEnd,
          c.newLineStart + off, c.newLineEnd + off⟩ ::
          copyOpsSpecFromRight (off + copyGrowthRight c) rest) := by
  refine ⟨?_, ?_, fun off c rest => rfl⟩
  · intro s
    simp only [copyToRight, copyOpsSpecRight]
    split_ifs <;> simp [copyToRight_fold_ops]
  · intro s
    simp only [copyToLeft, copyOpsSpecLeft]
    split_ifs <;> simp [copyToLeft_fold_ops]

theorem copyToRightStep_not_selected (buffer1 : List String) (hasSel : Bool)
    (acc : CopyAcc) (c : Chunk) (h : c.isSelected = false) :
    copyToRightStep buffer1 hasSel acc c = acc := by
  simp [copyToRightStep, h]

theorem copyToLeftStep_not_selected (buffer2 : List String) (hasSel : Bool)
    (acc : CopyAcc) (c : Chunk) (h : c.isSelected = false) :
    copyToLeftStep buffer2 hasSel acc c = acc := by
  simp [copyToLeftStep, h]

theorem foldl_copyToRightStep_no_selection (buffer1 : List String) (hasSel : Bool) :
    ∀ (l : List Chunk) (acc : CopyAcc), (∀ c ∈ l, c.isSelected = false) →
      l.foldl (copyToRightStep buffer1 hasSel) acc = acc := by
  intro l
  induction l with
  | nil => intro acc _; rfl
  | cons c rest ih =>
      intro acc h
      rw [List.foldl_cons,
        copyToRightStep_not_selected _ _ _ _ (h c (List.mem_cons_self c rest))]
      exact ih acc fun d hd => h d (List.mem_cons_of_mem c hd)

theorem foldl_copyToLeftStep_no_selection (buffer2 : List String) (hasSel : Bool) :
    ∀ (l : List Chunk) (acc : CopyAcc), (∀ c ∈ l, c.isSelected = false) →
      l.foldl (copyToLeftStep buffer2 hasSel) acc = acc := by
  intro l
  induction l with
  | nil => intro acc _; rfl
  | cons c rest ih =>
      intro acc h
      rw [List.foldl_cons,
        copyToLeftStep_not_selected _ _ _ _ (h c (List.mem_cons_self c rest))]
      exact ih acc fun d hd => h d (List.mem_cons_of_mem c hd)

/-- **C8.** A copy operation invoked while no chunk is selected is a no-op
on both buffers and on the chunk list and selection index — the entire
effect is appending the non-fatal "No differences selected." warning — and
no text-range operation is issued at all (empty trace). -/
theorem copy_noSelection_noop (s : CopyState)
    (h : ∀ c ∈ s.chunks, c.isSelected = false) :
    copyToRight s = ({ s with warnings := s.warnings ++ [copyHelpMessage] }, []) ∧
    copyToLeft s = ({ s with warnings := s.warnings ++ [copyHelpMessage] }, []) := by
  constructor
  · simp only [copyToRight]
    rw [foldl_copyToRightStep_no_selection _ _ _ _ h]
    rfl
  · simp only [copyToLeft]
    rw [foldl_copyToLeftStep_no_selection _ _ _ _ h]
    rfl

/-- A state with two chunks, neither selected. -/
def noSelectionState : CopyState :=
  { chunks := [⟨0, 1, 0, 1, false⟩, ⟨2, 3, 2, 4, false⟩]
    selectedChunkIndex := 0
    buffer1 := ["a", "b", "c"]
    buffer2 := ["a", "x", "c", "d"]
    warnings := []
    hasSelection1 := false
    hasSelection2 := false }

theorem copy_noSelection_noop_witness :
    (∀ c ∈ noSelectionState.chunks, c.isSelected = false) ∧
    copyToRight noSelectionState =
      ({ noSelectionState with warnings := [copyHelpMessage] }, []) :=
  ⟨by decide, (copy_noSelection_noop noSelectionState (by decide)).1⟩

/-! ## The view-zone store (`EditorDiffExtender._offsetDecorations`)

One entry per decoration; `pixelHeight` is `some _` for the dynamic view
zones created by `setViewZoneHeight` and `none` for entries whose JS
`pixelHeight` field is `undefined`.  `minHeightPx` is the pixel value of the
DOM element's `minHeight` style.  The marker/DOM objects themselves matter
only through these fields. -/

structure OffsetDecoration where
  lineNumber : Int
  blockPosition : BlockPos
  pixelHeight : Option Int
  minHeightPx : Int
deriving DecidableEq, Repr

/-- The `d.lineNumber === lineNumber && d.blockPosition === blockPosition`
predicate both `setViewZoneHeight` and `removeViewZone` search with. -/
def zoneKeyMatches (lineNumber : Int) (blockPosition : BlockPos)
    (d : OffsetDecoration) : Bool :=
  d.lineNumber == lineNumber && d.blockPosition == blockPosition

/-- `Array.prototype.find` followed by mutation of the found element. -/
def updateFirst {α : Type} (p : α → Bool) (f : α → α) : List α → List α
  | [] => []
  | x :: xs => if p x then f x :: xs else x :: updateFirst p f xs

/-- `findIndex` followed by `splice(index, 1)`. -/
def removeFirst {α : Type} (p : α → Bool) : List α → List α
  | [] => []
  | x :: xs => if p x then xs else x :: removeFirst p xs

/-- `EditorDiffExtender.setViewZoneHeight(lineNumber, heightInPixels,
blockPosition)`: an existing entry at the key is updated in place (style and
`pixelHeight` field), otherwise a new zone is appended — but only for a
strictly positive height. -/
def setViewZoneHeight (ds : List OffsetDecoration)
    (lineNumber heightInPixels : Int) (blockPosition : BlockPos) :
    List OffsetDecoration :=
  if ds.any (zoneKeyMatches lineNumber blockPosition) then
    updateFirst (zoneKeyMatches lineNumber blockPosition)
      (fun d => { d with
        minHeightPx := heightInPixels
        pixelHeight := some heightInPixels }) ds
  else if heightInPixels > 0 then
    ds ++ [{ lineNumber := lineNumber
             blockPosition := blockPosition
             pixelHeight := some heightInPixels
             minHeightPx := heightInPixels }]
  else ds

/-- `EditorDiffExtender.removeViewZone(lineNumber, blockPosition)`. -/
def removeViewZone (ds : List OffsetDecoration) (lineNumber : Int)
    (blockPosition : BlockPos) : List OffsetDecoration :=
  removeFirst (zoneKeyMatches lineNumber blockPosition) ds

/-- The `(anchorLine, position)` key of a decoration. -/
def zoneKey (d : OffsetDecoration) : Int × BlockPos :=
  (d.lineNumber, d.blockPosition)

/-- At most one view zone per `(anchorLine, position)` key. -/
def ZoneKeysNodup (ds : List OffsetDecoration) : Prop :=
  (ds.map zoneKey).Nodup

theorem zoneKeyMatches_iff (lineNumber : Int) (blockPosition : BlockPos)
    (d : OffsetDecoration) :
    zoneKeyMatches lineNumber blockPosition d = true ↔
      zoneKey d = (lineNumber, blockPosition) := by
  simp [zoneKeyMatches, zoneKey, Prod.ext_iff]

theorem updateFirst_map_zoneKey (p : OffsetDecoration → Bool)
    (f : OffsetDecoration → OffsetDecoration)
    (hf : ∀ x, zoneKey (f x) = zoneKey x) :
    ∀ l : List OffsetDecoration,
      (updateFirst p f l).map zoneKey = l.map zoneKey := by
  intro l
  induction l with
  | nil => rfl
  | cons x xs ih =>
      by_cases hx : p x
      · simp [updateFirst, hx, hf]
      · simp [updateFirst, hx, ih]

theorem updateFirst_length {α : Type} (p : α → Bool) (f : α → α) :
    ∀ l : List α, (updateFirst p f l).length = l.length := by
  intro l
  induction l with
  | nil => rfl
  | cons x xs ih =>
      by_cases hx : p x
      · simp [updateFirst, hx]
      · simp [updateFirst, hx, ih]

theorem removeFirst_sublist {α : Type} (p : α → Bool) :
    ∀ l : List α, List.Sublist (removeFirst p l) l := by
  intro l
  induction l with
  | nil => exact List.Sublist.refl []
  | cons x xs ih =>
      simp only [removeFirst]
      split
      · exact List.sublist_cons_self x xs
      · exact ih.cons₂ x

theorem any_zoneKeyMatches_iff (ds : List OffsetDecoration) (lineNumber : Int)
    (blockPosition : BlockPos) :
    ds.any (zoneKeyMatches lineNumber blockPosition) = true ↔
      (lineNumber, blockPosition) ∈ ds.map zoneKey := by
  simp only [List.any_eq_true, List.mem_map, zoneKeyMatches_iff]

/-- **C6 counterexample.** Setting height 0 for a key that has a view zone
does not remove it: the zone stays in the store (updated to zero height), so
a zero-height zone can remain. -/
theorem setViewZoneHeight_zero_counterexample :
    setViewZoneHeight [⟨5, BlockPos.after, some 20, 20⟩] 5 0 BlockPos.after =
      [⟨5, BlockPos.after, some 0, 0⟩] ∧
    (setViewZoneHeight [⟨5, BlockPos.after, some 20, 20⟩] 5 0
        BlockPos.after).any (zoneKeyMatches 5 BlockPos.after) = true ∧
    removeViewZone [⟨5, BlockPos.after, some 20, 20⟩] 5 BlockPos.after = [] := by
  refine ⟨by decide, by decide, by decide⟩

/-- **C6 (amended).** Per-key uniqueness is an invariant of the store:
`setViewZoneHeight` and `removeViewZone` both preserve it, and setting a
height for a key that already has a view zone updates that existing entry
in place (same entry count, key still present) rather than creating a second
one.  But height 0 does not mean removal: for an absent key it creates
nothing (the store is unchanged for any non-positive height), while for a
present key it merely updates the entry to zero height (see the
counterexample) — removal is a separate operation (`removeViewZone`). -/
theorem viewZone_key_uniqueness (ds : List OffsetDecoration)
    (lineNumber heightInPixels : Int) (blockPosition : BlockPos)
    (hnd : ZoneKeysNodup ds) :
    ZoneKeysNodup (setViewZoneHeight ds lineNumber heightInPixels blockPosition) ∧
    ZoneKeysNodup (removeViewZone ds lineNumber blockPosition) ∧
    (ds.any (zoneKeyMatches lineNumber blockPosition) = true →
      (setViewZoneHeight ds lineNumber heightInPixels blockPosition).length =
        ds.length ∧
      (setViewZoneHeight ds lineNumber heightInPixels blockPosition).any
        (zoneKeyMatches lineNumber blockPosition) = true) ∧
    (ds.any (zoneKeyMatches lineNumber blockPosition) = false →
      heightInPixels ≤ 0 →
      setViewZoneHeight ds lineNumber heightInPixels blockPosition = ds) := by
  have hf : ∀ x : OffsetDecoration, zoneKey ({ x with
      minHeightPx := heightInPixels,
      pixelHeight := some heightInPixels }) = zoneKey x := fun x => rfl
  refine ⟨?_, ?_, ?_, ?_⟩
  · unfold setViewZoneHeight
    by_cases hany : ds.any (zoneKeyMatches lineNumber blockPosition)
    · rw [if_pos hany]
      unfold ZoneKeysNodup
      rw [updateFirst_map_zoneKey _ _ hf]
      exact hnd
    · rw [if_neg hany]
      by_cases hpos : heightInPixels > 0
      · rw [if_pos hpos]
        unfold ZoneKeysNodup
        rw [List.map_append]
        rw [List.nodup_append]
        refine ⟨hnd, List.nodup_singleton _, ?_⟩
        intro k hk hk1
        simp only [List.map_cons, List.map_nil, List.mem_singleton] at hk1
        rw [hk1] at hk
        have : (lineNumber, blockPosition) ∈ ds.map zoneKey := by
          simpa [zoneKey] using hk
        rw [← any_zoneKeyMatches_iff] at this
        exact hany this
      · rw [if_neg hpos]; exact hnd
  · unfold ZoneKeysNodup removeViewZone
    exact hnd.sublist ((removeFirst_sublist _ ds).map zoneKey)
  · intro hany
    unfold setViewZoneHeight
    rw [if_pos hany]
    refine ⟨updateFirst_length _ _ ds, ?_⟩
    rw [any_zoneKeyMatches_iff, updateFirst_map_zoneKey _ _ hf,
      ← any_zoneKeyMatches_iff]
    exact hany
  · intro hany hle
    unfold setViewZoneHeight
    rw [if_neg (by simp [hany]), if_neg (by omega)]

/-- A store holding one dynamic zone at key `(5, after)`. -/
def sampleZones : List OffsetDecoration := [⟨5, BlockPos.after, some 20, 20⟩]

theorem viewZone_key_uniqueness_witness :
    ZoneKeysNodup sampleZones ∧
    ZoneKeysNodup (setViewZoneHeight sampleZones 5 7 BlockPos.after) :=
  ⟨by unfold ZoneKeysNodup; decide,
    (viewZone_key_uniqueness sampleZones 5 7 BlockPos.after
      (by unfold ZoneKeysNodup; decide)).1⟩

/-! ## Idempotent teardown (`EditorDiffExtender.destroy`)

The teardown-relevant state of an `EditorDiffExtender`: the `_destroyed`
flag, the marker/decoration collections, whether the line marker layer is
still alive, the placeholder text pair, and the `diff-view` CSS class on the
editor's view.  `editorAlive` is `this._editor && !this._editor.isDestroyed()`. -/

structure ExtenderState where
  destroyed : Bool
  editorAlive : Bool
  miscMarkers : List Int
  blockDecorations : List Int
  offsetDecorations : List OffsetDecoration
  lineMarkerLayerMarkers : List Int
  selectionMarkerLayerMarkers : List Int
  lineMarkerLayerAlive : Bool
  placeholderText : String
  oldPlaceholderText : String
  hasDiffViewCssClass : Bool
deriving DecidableEq, Repr

/-- `EditorDiffExtender.destroyMarkers`: clears the decoration/marker
references (their deferred destruction is outside the state) and clears both
marker layers. -/
def destroyMarkersOp (s : ExtenderState) : ExtenderState :=
  { s with
    miscMarkers := []
    blockDecorations := []
    offsetDecorations := []
    lineMarkerLayerMarkers := []
    selectionMarkerLayerMarkers := [] }

/-- `EditorDiffExtender.destroy`: an early return when already destroyed;
otherwise set the flag, tear down markers, destroy the line marker layer,
and — only if the editor still exists — restore the placeholder text and
remove the `diff-view` CSS class. -/
def destroyExtender (s : ExtenderState) : ExtenderState :=
  if s.destroyed then s
  else
    let s1 := { s with destroyed := true }
    let s2 := destroyMarkersOp s1
    let s3 := { s2 with lineMarkerLayerAlive := false }
    if s3.editorAlive then
      { s3 with
        placeholderText := s3.oldPlaceholderText
        hasDiffViewCssClass := false }
    else s3

/-- **C10.** `destroy` is idempotent: the first call marks the instance
destroyed and tears down the markers, the marker layer, and (when the editor
still exists) the placeholder text and the CSS class; a call on an
already-destroyed instance returns immediately with no further effect, so a
second `destroy` is the identity. -/
theorem destroy_idempotent (s : ExtenderState) :
    (destroyExtender s).destroyed = true ∧
    destroyExtender (destroyExtender s) = destroyExtender s ∧
    (s.destroyed = true → destroyExtender s = s) ∧
    (s.destroyed = false →
      (destroyExtender s).miscMarkers = [] ∧
      (destroyExtender s).blockDecorations = [] ∧
      (destroyExtender s).offsetDecorations = [] ∧
      (destroyExtender s).lineMarkerLayerMarkers = [] ∧
      (destroyExtender s).selectionMarkerLayerMarkers = [] ∧
      (destroyExtender s).lineMarkerLayerAlive = false ∧
      (s.editorAlive = true →
        (destroyExtender s).placeholderText = s.oldPlaceholderText ∧
        (destroyExtender s).hasDiffViewCssClass = false)) := by
  have hof : ∀ t : ExtenderState, t.destroyed = true → destroyExtender t = t := by
    intro t ht
    simp [destroyExtender, ht]
  by_cases hd : s.destroyed
  · refine ⟨?_, ?_, fun _ => hof s hd, fun hc => absurd hd (by simp [hc])⟩
    · simp [destroyExtender, hd]
    · rw [hof s hd]
      exact hof s hd
  · have hdestroyed : (destroyExtender s).destroyed = true := by
      by_cases ha : s.editorAlive <;>
        simp [destroyExtender, destroyMarkersOp, hd, ha]
    refine ⟨hdestroyed, hof _ hdestroyed,
      fun hc => absurd hc (by simp [hd]), fun _ => ?_⟩
    by_cases ha : s.editorAlive
    · refine ⟨?_, ?_, ?_, ?_, ?_, ?_, fun _ => ⟨?_, ?_⟩⟩ <;>
        simp [destroyExtender, destroyMarkersOp, hd, ha]
    · refine ⟨?_, ?_, ?_, ?_, ?_, ?_, fun hc => absurd hc (by simp [ha])⟩ <;>
        simp [destroyExtender, destroyMarkersOp, hd, ha]

end DiffViewSpec
